import Mathlib

/-!
Verification of the fetch-dedup-and-reconciliation engine of react-redux-query.

The definitions below are a shallow embedding of the TypeScript sources:
  * `reduce` embeds `src/reducer.ts` (action types REACT_REDUX_QUERY_SAVE_DATA,
    REACT_REDUX_QUERY_UPDATE_DATA, REACT_REDUX_QUERY_UPDATE_QUERY_STATE);
  * `queryBegin`/`queryComplete` embed the `query` orchestrator of the query
    module (dedupe check, request-id generation, in-flight registry updates,
    result classification and the dispatched actions);
  * `pollStep` embeds the generation-counter polling loop of `usePoll`.

JavaScript dynamic values are modelled by `JSValue`; machine timestamps
(`Date.now()`, `Math.round(performance.now())`) are natural numbers, with the
dedupe window compared over `Int` exactly as JS number subtraction does for
monotone clocks.
-/

namespace RRQ

/-- A JavaScript value, as far as the engine inspects one: `undefined`, `null`,
booleans, (integer) numbers, strings and plain objects given as association
lists of own properties. -/
inductive JSValue where
  | vundefined
  | vnull
  | vbool (b : Bool)
  | vnum (n : Int)
  | vstr (s : String)
  | vobj (fields : List (String × JSValue))
deriving Repr

/-- JS truthiness of a value (`Boolean(v)`): `undefined`, `null`, `false`, `0`
and the empty string are falsy; objects are always truthy. -/
def truthy : JSValue → Bool
  | .vundefined => false
  | .vnull => false
  | .vbool b => b
  | .vnum n => n != 0
  | .vstr s => s != ""
  | .vobj _ => true

/-- `v === null || v === undefined` (the engine's discard/absence test). -/
def isNullish : JSValue → Bool
  | .vnull => true
  | .vundefined => true
  | _ => false

/-- Property access on an object's own fields (`obj[k]`), first binding wins
(JS objects have unique keys). -/
def lookupField (fields : List (String × JSValue)) (k : String) : Option JSValue :=
  (fields.find? (fun p => p.1 == k)).map (fun p => p.2)

/-- Decimal digit characters of a positive natural, most significant first.
The `fuel` argument bounds the division recursion structurally; `fuel = n`
always suffices because `n / 10 < n` for `n > 0`. -/
def decDigits : Nat → Nat → List Char
  | _, 0 => []
  | 0, _ + 1 => []
  | fuel + 1, n + 1 => decDigits fuel ((n + 1) / 10) ++ [Nat.digitChar ((n + 1) % 10)]

/-- Decimal rendering of a natural number, as the JS template literal
`${n}` renders a nonnegative integer. -/
def decRepr (n : Nat) : String :=
  if n = 0 then "0" else ⟨decDigits n n⟩

/-- JS object-spread shallow copy `{ ...v }`: objects copy their fields,
strings spread to index-keyed single-character fields, every other value
spreads to the empty object. -/
def spreadCopy : JSValue → JSValue
  | .vobj fields => .vobj fields
  | .vstr s => .vobj ((s.toList.enum).map (fun p => (decRepr p.1, .vstr (String.singleton p.2))))
  | _ => .vobj []

/-- One element of an `inFlight` array: `{ id, fetchMonoMs }`. -/
structure InFlightEntry where
  id : String
  fetchMonoMs : Nat
deriving Repr, DecidableEq

/-- The cache entry (`QueryState` in the source). Every field is optional in
the source; `none` models an absent (or `undefined`) field. The same shape
serves as the `Partial<QueryState>` payload of the bookkeeping action, where
`none` means the field is not present in the dispatched partial object. -/
structure QueryState where
  data : Option JSValue := none
  dataMs : Option Nat := none
  error : Option JSValue := none
  errorMs : Option Nat := none
  fetchMs : Option Nat := none
  goodFetchMonoMs : Option Nat := none
  inFlight : Option (List InFlightEntry) := none

/-- Result of a caller-supplied updater (merge) function:
`undefined` (no-op), `null` (tombstone) or a data value. -/
inductive UpdResult where
  | undef
  | tombstone
  | value (v : JSValue)

/-- A merge/updater function `(data, newData) => D | null | undefined`. -/
def Updater := Option JSValue → JSValue → UpdResult

/-- Redux actions consumed by the reducer. `updateQueryState` carries the
partial query state together with `options?.saveStaleResponse || false`
(absent options behave as `false`). -/
inductive Action where
  | saveData (key : String) (d : JSValue)
  | updateData (key : String) (updater : Updater) (newData : JSValue)
  | updateQueryState (key : String) (qs : QueryState) (saveStaleResponse : Bool)

/-- The key an action addresses. -/
def Action.key : Action → String
  | .saveData k _ => k
  | .updateData k _ _ => k
  | .updateQueryState k _ _ => k

/-- The query branch of the Redux state tree: a keyed family of entries. -/
def QueryBranch := String → Option QueryState

/-- Write (or remove, with `none`) the entry at a single key. -/
def setKey (st : QueryBranch) (k : String) (v : Option QueryState) : QueryBranch :=
  fun k' => if k' = k then v else st k'

/-- JS object spread `{ ...old, ...partial }` over query states: fields present
in the partial override, absent fields are preserved. -/
def spreadInto (old new : QueryState) : QueryState :=
  { data := new.data <|> old.data
    dataMs := new.dataMs <|> old.dataMs
    error := new.error <|> old.error
    errorMs := new.errorMs <|> old.errorMs
    fetchMs := new.fetchMs <|> old.fetchMs
    goodFetchMonoMs := new.goodFetchMonoMs <|> old.goodFetchMonoMs
    inFlight := new.inFlight <|> old.inFlight }

/-- The stale-write guard of the UPDATE_QUERY_STATE reducer case: when
`saveStaleResponse` is not set and the partial carries `goodFetchMonoMs`
strictly below the entry's current one (`state[key]?.goodFetchMonoMs || 0`),
the `data`, `dataMs` and `goodFetchMonoMs` fields are stripped from the
partial before it is merged. -/
def staleStrip (cur : Option QueryState) (qs : QueryState) (saveStaleResponse : Bool) :
    QueryState :=
  if saveStaleResponse then qs
  else
    match qs.goodFetchMonoMs with
    | none => qs
    | some g =>
      if g < (cur.bind (fun e => e.goodFetchMonoMs)).getD 0 then
        { qs with data := none, dataMs := none, goodFetchMonoMs := none }
      else qs

/-- The reducer of `src/reducer.ts`. `nowMs` models the reducer's own
`Date.now()` call (the `dataMs` written by the SAVE_DATA and UPDATE_DATA
cases). -/
def reduce (state : QueryBranch) (action : Action) (nowMs : Nat) : QueryBranch :=
  match action with
  | .saveData key d =>
    setKey state key
      (some { (state key).getD {} with data := some (spreadCopy d), dataMs := some nowMs })
  | .updateData key updater newData =>
    match updater ((state key).bind (fun e => e.data)) newData with
    | .undef => state
    | .tombstone => setKey state key none
    | .value v =>
      setKey state key
        (some { (state key).getD {} with data := some (spreadCopy v), dataMs := some nowMs })
  | .updateQueryState key qs saveStaleResponse =>
    let qs' := staleStrip (state key) qs saveStaleResponse
    setKey state key (some (spreadInto ((state key).getD {}) qs'))

/-- Dispatch a sequence of actions (all sharing one reducer-time clock). -/
def applyEvents (st : QueryBranch) (events : List Action) (nowMs : Nat) : QueryBranch :=
  events.foldl (fun s a => reduce s a nowMs) st

/-- One entry of the process-wide `fetchStateByKey` registry. -/
structure RegEntry where
  fetchMonoMs : Nat
  inFlight : List InFlightEntry
deriving Repr, DecidableEq

/-- The in-flight registry, modelled as a JS object: an insertion-ordered
association list with unique keys. -/
def Registry := List (String × RegEntry)

/-- `fetchStateByKey[key]` (read). -/
def regGet (reg : Registry) (k : String) : Option RegEntry :=
  (reg.find? (fun p => p.1 == k)).map (fun p => p.2)

/-- `fetchStateByKey[key] = v` (write): replace in place, or append. -/
def regSet (reg : Registry) (k : String) (v : RegEntry) : Registry :=
  match reg with
  | [] => [(k, v)]
  | p :: rest => if p.1 = k then (k, v) :: rest else p :: regSet rest k v

/-- The request id `"{fetchMonoMs}-{counter}"`. -/
def mkId (fetchMonoMs counter : Nat) : String :=
  decRepr fetchMonoMs ++ "-" ++ decRepr counter

/-- The `while (true)` id-generation loop: try `"{t}-{counter}"` with
`counter` incremented from `c` until no element of the in-flight array has
that id. `fuel` bounds the loop; `inFlight.length + 1` always suffices
(`genIdLoop_isSome`), so the source's unbounded loop terminates. -/
def genIdLoop (t : Nat) (inFlight : List InFlightEntry) : Nat → Nat → Option String
  | _, 0 => none
  | c, fuel + 1 =>
    let id := mkId t c
    if inFlight.any (fun d => d.id == id) then genIdLoop t inFlight (c + 1) fuel
    else some id

/-- `endFetch`: drop the completed request id from the in-flight array
(`inFlight.filter((data) => data.id !== requestId)`). -/
def endFetch (inFlight : List InFlightEntry) (requestId : String) : List InFlightEntry :=
  inFlight.filter (fun d => d.id != requestId)

/-- Result classification (the `response?.hasOwnProperty('queryData')`
cascade at the end of `query`). -/
inductive Classified where
  | dataWrite (v : JSValue)
  | errorWrite (v : JSValue)
  | discard

/-- Classify a raw fetcher result: a present non-nullish `queryData` field is
saved as data; a present nullish one turns the whole response into the error
value; a nullish response is discarded; anything else is saved whole. -/
def classify (r : JSValue) : Classified :=
  match r with
  | .vobj fields =>
    match lookupField fields "queryData" with
    | some v => if isNullish v then .errorWrite (.vobj fields) else .dataWrite v
    | none => .dataWrite (.vobj fields)
  | .vnull => .discard
  | .vundefined => .discard
  | other => .dataWrite other

/-- What `beginFetch` hands back when the call proceeds: the fresh request id,
the copied-and-extended in-flight array, and the bookkeeping action
dispatched before the fetcher is called. -/
structure BeginOk where
  requestId : String
  inFlightBefore : List InFlightEntry
  event : Action

/-- First, synchronous half of `query` (everything before `await fetcher()`):
the dedupe bail-out, request-id generation, registry reservation and the
`{ fetchMs, inFlight }` bookkeeping dispatch. Returns the unchanged registry
and `none` when the call is deduped (the orchestrator then returns
`undefined` without calling the fetcher or dispatching anything). -/
def queryBegin (key : String) (fetchMs fetchMonoMs : Nat) (dedupe : Bool) (dedupeMs : Int)
    (reg : Registry) : Registry × Option BeginOk :=
  let dedupeHit :=
    match regGet reg key with
    | some fsb => dedupe && ((fetchMonoMs : Int) - (fsb.fetchMonoMs : Int) ≤ dedupeMs)
    | none => false
  if dedupeHit then (reg, none)
  else
    let inFlight0 := ((regGet reg key).map (fun e => e.inFlight)).getD []
    match genIdLoop fetchMonoMs inFlight0 0 (inFlight0.length + 1) with
    | none => (reg, none)
    | some id =>
      let inFlightBefore := inFlight0 ++ [⟨id, fetchMonoMs⟩]
      (regSet reg key ⟨fetchMonoMs, inFlightBefore⟩,
        some ⟨id, inFlightBefore,
          .updateQueryState key { fetchMs := some fetchMs, inFlight := some inFlightBefore }
            false⟩)

/-- How the awaited fetcher ended: a thrown error or a resolved response. -/
inductive Outcome where
  | threw (e : JSValue)
  | resolved (r : JSValue)

/-- What `query` does after the events are dispatched: return the raw
response, return `undefined`, or re-throw. -/
inductive QueryReturn where
  | retResponse (r : JSValue)
  | retUndefined
  | retThrow (e : JSValue)

/-- Output of the completion half of `query`: the updated registry, the
dispatched actions in dispatch order, and the call's return/throw. -/
structure CompleteResult where
  registry : Registry
  events : List Action
  ret : QueryReturn

/-- Second half of `query` (everything after `await fetcher()`): remove the
request from the registry's in-flight array, then either report a thrown
error (`error = e || {}`, dispatched before the `catchError` decision), or
classify the response and dispatch the save (direct write, or the
bookkeeping + updater pair), or dispatch nothing on a nullish response. -/
def queryComplete (key requestId : String) (fetchMonoMs afterMs : Nat)
    (updater : Option Updater) (catchError saveStaleResponse : Bool)
    (outcome : Outcome) (reg : Registry) : CompleteResult :=
  let fetchState := regGet reg key
  let inFlight := endFetch ((fetchState.map (fun e => e.inFlight)).getD []) requestId
  let regMono :=
    match fetchState with
    | some fs => if fs.fetchMonoMs = 0 then fetchMonoMs else fs.fetchMonoMs
    | none => fetchMonoMs
  let reg' := regSet reg key ⟨regMono, inFlight⟩
  match outcome with
  | .threw e =>
    let err : JSValue := if truthy e then e else .vobj []
    let errQS : QueryState :=
      { error := some err
        errorMs := some afterMs
        inFlight := some inFlight }
    { registry := reg'
      events := [.updateQueryState key errQS false]
      ret := if catchError then .retUndefined else .retThrow err }
  | .resolved r =>
    let bookkeepQS : QueryState :=
      { dataMs := some afterMs
        goodFetchMonoMs := some fetchMonoMs
        inFlight := some inFlight }
    let events :=
      match classify r with
      | .dataWrite v =>
        match updater with
        | some u =>
          [.updateQueryState key bookkeepQS saveStaleResponse, .updateData key u v]
        | none =>
          [.updateQueryState key { bookkeepQS with data := some (spreadCopy v) }
            saveStaleResponse]
      | .errorWrite w =>
        let errQS : QueryState :=
          { error := some (spreadCopy w)
            errorMs := some afterMs
            inFlight := some inFlight }
        [.updateQueryState key errQS false]
      | .discard => []
    { registry := reg', events := events, ret := .retResponse r }

/-- One `poll` closure instance of `usePoll`: the generation value `pid` it
captured (`poll(pollId.current)` / `setTimeout(() => poll(pid))`) together
with the `key` its effect closure captured (the fetcher is keyed the same
way, so `key` stands for both). -/
structure PollLoop where
  pid : Nat
  key : String
deriving Repr, DecidableEq

/-- State of the `usePoll` generation-counter machinery: `current` is the
ref `pollId.current`, shared by all effect runs of one component instance;
`pending` are the `poll` callbacks currently scheduled (the effect body's
immediate `poll(pollId.current)` call and `setTimeout` reschedules);
`running` are the cycles awaiting `await query(...)`. `fetchLog` records
every cycle that actually invoked the fetcher (with its captured key);
`reconcileLog` records every completion that was processed (reconciled). -/
structure PollSys where
  current : Nat
  pending : List PollLoop
  running : List PollLoop
  fetchLog : List PollLoop
  reconcileLog : List PollLoop
deriving Repr, DecidableEq

/-- The cancellation check at the top of each cycle:
`if (pollId.current === 0 || pollId.current !== pid) return`. -/
def pollGuardExits (current pid : Nat) : Bool :=
  current == 0 || current != pid

/-- Events of the polling machinery. `fire`: a scheduled `poll` callback
runs. `complete`: an awaited `query` call resolves. `effectBody k`: the
effect body runs with captured key `k` — `pollId.current = pollId.current + 1`
followed by `poll(pollId.current)`. `cleanup`: the effect's cleanup function
runs — `pollId.current = 0`. React's lifecycle produces these in fixed
shapes: mount is `effectBody k` (on a fresh ref, `current = 0`); a
`key`/`intervalMs` change is `cleanup` immediately followed by
`effectBody k'`; unmount is `cleanup` alone. -/
inductive PollOp where
  | fire (c : PollLoop)
  | complete (c : PollLoop)
  | effectBody (k : String)
  | cleanup
deriving Repr, DecidableEq

/-- One step of the polling machinery. A fired callback first checks the
guard and exits without calling `query` on a mismatch; otherwise it invokes
the fetcher with its captured key and its cycle starts running. A completed
cycle is always reconciled (nothing re-checks the generation after
`await query(...)`) and reschedules itself via `setTimeout`. -/
def pollStep (s : PollSys) (op : PollOp) : PollSys :=
  match op with
  | .fire c =>
    if c ∈ s.pending then
      let s' := { s with pending := s.pending.erase c }
      if pollGuardExits s.current c.pid then s'
      else { s' with running := s'.running ++ [c], fetchLog := s'.fetchLog ++ [c] }
    else s
  | .complete c =>
    if c ∈ s.running then
      { s with running := s.running.erase c
               pending := s.pending ++ [c]
               reconcileLog := s.reconcileLog ++ [c] }
    else s
  | .effectBody k =>
    { s with current := s.current + 1, pending := s.pending ++ [⟨s.current + 1, k⟩] }
  | .cleanup => { s with current := 0 }

/-- Run a sequence of polling events. -/
def pollRun (s : PollSys) : List PollOp → PollSys
  | [] => s
  | op :: ops => pollRun (pollStep s op) ops

/-! ### Classification (C3) -/

/-- C3: result classification is a total four-case function of the raw
fetcher result: a present non-nullish `queryData` field yields a data write
with that payload; a present nullish `queryData` yields an error write whose
error value is the entire raw result; a nullish result is discarded; any
result without the designated field (an object lacking it, or a non-object)
yields a data write with the entire raw result. -/
theorem classify_total_four_cases :
    (∀ fields v, lookupField fields "queryData" = some v → isNullish v = false →
      classify (.vobj fields) = .dataWrite v)
    ∧ (∀ fields v, lookupField fields "queryData" = some v → isNullish v = true →
      classify (.vobj fields) = .errorWrite (.vobj fields))
    ∧ (∀ r, isNullish r = true → classify r = .discard)
    ∧ (∀ fields, lookupField fields "queryData" = none →
      classify (.vobj fields) = .dataWrite (.vobj fields))
    ∧ (∀ r, isNullish r = false → (∀ fields, r ≠ .vobj fields) →
      classify r = .dataWrite r) := by
  refine ⟨?_, ?_, ?_, ?_, ?_⟩
  · intro fields v h hv
    simp [classify, h, hv]
  · intro fields v h hv
    simp [classify, h, hv]
  · intro r h
    cases r <;> simp_all [isNullish, classify]
  · intro fields h
    simp [classify, h]
  · intro r h hobj
    cases r <;> simp_all [isNullish, classify]

/-- Witness for C3: the four cases evaluated at the spec's own examples. -/
theorem classify_total_four_cases_witness :
    classify (.vobj [("queryData", .vnum 7)]) = .dataWrite (.vnum 7)
    ∧ classify (.vobj [("queryData", .vnull)]) = .errorWrite (.vobj [("queryData", .vnull)])
    ∧ classify .vnull = .discard
    ∧ classify (.vobj [("other", .vnum 1)]) = .dataWrite (.vobj [("other", .vnum 1)])
    ∧ classify (.vnum 3) = .dataWrite (.vnum 3) := by
  refine ⟨?_, ?_, ?_, ?_, ?_⟩
  · exact classify_total_four_cases.1 [("queryData", .vnum 7)] (.vnum 7) rfl rfl
  · exact classify_total_four_cases.2.1 [("queryData", .vnull)] .vnull rfl rfl
  · exact classify_total_four_cases.2.2.1 .vnull rfl
  · exact classify_total_four_cases.2.2.2.1 [("other", .vnum 1)] rfl
  · exact classify_total_four_cases.2.2.2.2 (.vnum 3) rfl (by intro fields h; cases h)

/-! ### In-flight accounting (C8) -/

/-- C8: `endFetch` is idempotent — removing a request id twice yields the
same in-flight array as removing it once — and removing an id that is absent
returns the array's elements unchanged (the source returns them as a fresh
filtered copy; object identity is not observable at the value level). -/
theorem endFetch_idempotent_absent_noop :
    ∀ (l : List InFlightEntry) (id : String),
      endFetch (endFetch l id) id = endFetch l id
      ∧ (id ∉ l.map (fun d => d.id) → endFetch l id = l) := by
  intro l id
  constructor
  · simp [endFetch, List.filter_filter]
  · intro h
    rw [endFetch, List.filter_eq_self]
    intro a ha
    simp only [bne_iff_ne, ne_eq]
    intro contra
    exact h (contra ▸ List.mem_map_of_mem (fun d => d.id) ha)

/-- Witness for C8 at a concrete array and absent id. -/
theorem endFetch_idempotent_absent_noop_witness :
    endFetch (endFetch [⟨"1-0", 1⟩] "1-0") "1-0" = endFetch [⟨"1-0", 1⟩] "1-0"
    ∧ endFetch [⟨"1-0", 1⟩] "9-9" = [⟨"1-0", 1⟩] := by
  refine ⟨(endFetch_idempotent_absent_noop [⟨"1-0", 1⟩] "1-0").1, ?_⟩
  exact (endFetch_idempotent_absent_noop [⟨"1-0", 1⟩] "9-9").2 (by decide)

/-! ### Per-key frame property of the reducer (C10) -/

/-- C10: for every state of the query branch and every action carrying a key,
the resulting branch maps every other key to exactly the same entry as
before; only the addressed key's entry is created, replaced or removed. -/
theorem reduce_frame :
    ∀ (st : QueryBranch) (a : Action) (now : Nat) (k' : String),
      k' ≠ a.key → reduce st a now k' = st k' := by
  intro st a now k' h
  match a with
  | .saveData k d =>
    simp only [Action.key] at h
    simp [reduce, setKey, h]
  | .updateData k updater newData =>
    simp only [Action.key] at h
    cases hu : updater ((st k).bind fun e => e.data) newData <;>
      simp [reduce, hu, setKey, h]
  | .updateQueryState k qs sst =>
    simp only [Action.key] at h
    simp [reduce, setKey, h]

/-- Witness for C10: a save at one key leaves another key's (absent) entry
untouched. -/
theorem reduce_frame_witness :
    reduce (fun _ => none) (.saveData "k" (.vobj [])) 0 "other" = none :=
  reduce_frame (fun _ => none) (.saveData "k" (.vobj [])) 0 "other" (by decide)

/-- A concrete branch used by witnesses and counterexamples: a single entry
at key `"k"` whose data `{v: 1}` was accepted at fetch ordinal 5. -/
def witnessBranch : QueryBranch := fun k =>
  if k = "k" then
    some { data := some (.vobj [("v", .vnum 1)]), dataMs := some 10,
           goodFetchMonoMs := some 5, inFlight := some [] }
  else none

/-! ### Merge-function semantics (C6) -/

/-- C6: for the UPDATE_DATA reducer case, an updater returning `undefined`
leaves the branch unchanged; returning `null` removes the entire entry at the
key; returning a value stores that value's shallow copy as `data` (the copy
is the value itself for object data, which is what the source's types allow)
while leaving `goodFetchMonoMs` untouched — so after the accompanying
non-stale bookkeeping event of the same fetch it remains at that fetch's
ordinal. -/
theorem update_data_merge_semantics :
    ∀ (st : QueryBranch) (k : String) (u : Updater) (nd : JSValue) (now : Nat),
      (u ((st k).bind (fun e => e.data)) nd = .undef →
        reduce st (.updateData k u nd) now = st)
      ∧ (u ((st k).bind (fun e => e.data)) nd = .tombstone →
        (reduce st (.updateData k u nd) now) k = none)
      ∧ (∀ v, u ((st k).bind (fun e => e.data)) nd = .value v →
        ((reduce st (.updateData k u nd) now) k).bind (fun e => e.data)
            = some (spreadCopy v)
          ∧ (∀ fields, v = .vobj fields → spreadCopy v = v)
          ∧ ((reduce st (.updateData k u nd) now) k).bind (fun e => e.goodFetchMonoMs)
            = (st k).bind (fun e => e.goodFetchMonoMs))
      ∧ (∀ (a m : Nat) (fl : List InFlightEntry) (now₁ : Nat),
        ¬ m < ((st k).bind (fun e => e.goodFetchMonoMs)).getD 0 →
        ∀ v,
          u (((reduce st
                (.updateQueryState k
                  { dataMs := some a, goodFetchMonoMs := some m, inFlight := some fl }
                  false) now₁) k).bind (fun e => e.data)) nd = .value v →
          ((reduce (reduce st
              (.updateQueryState k
                { dataMs := some a, goodFetchMonoMs := some m, inFlight := some fl }
                false) now₁)
            (.updateData k u nd) now) k).bind (fun e => e.goodFetchMonoMs) = some m) := by
  intro st k u nd now
  refine ⟨?_, ?_, ?_, ?_⟩
  · intro h
    simp [reduce, h]
  · intro h
    simp [reduce, h, setKey]
  · intro v h
    refine ⟨?_, ?_, ?_⟩
    · simp [reduce, h, setKey]
    · intro fields hv
      subst hv
      rfl
    · cases hst : st k <;> [skip; skip] <;> rw [hst] at h <;> simp at h <;>
        simp [reduce, hst, h, setKey]
  · intro a m fl now₁ hns v h
    rw [reduce] at h ⊢
    simp only [staleStrip, Bool.false_eq_true, if_false, hns, if_neg hns] at h ⊢
    rw [reduce, h]
    cases hst : st k <;> simp [setKey, spreadInto, hst]

/-- Witness for C6 at concrete updaters, data and branch. -/
theorem update_data_merge_semantics_witness :
    reduce witnessBranch (.updateData "k" (fun _ _ => .undef) (.vobj [])) 30 = witnessBranch
    ∧ (reduce witnessBranch (.updateData "k" (fun _ _ => .tombstone) (.vobj [])) 30) "k" = none
    ∧ ((reduce witnessBranch
        (.updateData "k" (fun _ nd => .value nd) (.vobj [("v", .vnum 2)])) 30) "k").bind
        (fun e => e.data) = some (spreadCopy (.vobj [("v", .vnum 2)]))
    ∧ ((reduce (reduce witnessBranch
        (.updateQueryState "k"
          { dataMs := some 20, goodFetchMonoMs := some 9, inFlight := some [] } false) 20)
        (.updateData "k" (fun _ nd => .value nd) (.vobj [("v", .vnum 2)])) 30) "k").bind
        (fun e => e.goodFetchMonoMs) = some 9 := by
  refine ⟨?_, ?_, ?_, ?_⟩
  · exact (update_data_merge_semantics witnessBranch "k" (fun _ _ => .undef)
      (.vobj []) 30).1 rfl
  · exact (update_data_merge_semantics witnessBranch "k" (fun _ _ => .tombstone)
      (.vobj []) 30).2.1 rfl
  · exact ((update_data_merge_semantics witnessBranch "k" (fun _ nd => .value nd)
      (.vobj [("v", .vnum 2)]) 30).2.2.1 (.vobj [("v", .vnum 2)]) rfl).1
  · exact (update_data_merge_semantics witnessBranch "k" (fun _ nd => .value nd)
      (.vobj [("v", .vnum 2)]) 30).2.2.2 20 9 [] 20 (by decide) (.vobj [("v", .vnum 2)]) rfl

/-! ### Stale-write guard (C1) -/

/-- Counterexample to C1's merge-function-path clause. The entry at `"k"`
holds data `{v: 1}` with `goodFetchMonoMs = 5`. A stale merge-path
reconciliation (fetch ordinal `3 < 5`, `saveStaleResponse` unset, updater
replacing the data) dispatches the bookkeeping event followed by the
UPDATE_DATA event; the reducer suppresses the bookkeeping fields but applies
the updater unguarded, so `data` becomes `{v: 2}` — the stale fetch's result
overwrites the newer data, contradicting the claim that the entry's `data`
is left unchanged on this path. -/
theorem stale_merge_write_counterexample :
    ((applyEvents witnessBranch
        [.updateQueryState "k"
            { dataMs := some 20, goodFetchMonoMs := some 3, inFlight := some [] } false,
          .updateData "k" (fun _ nd => .value nd) (.vobj [("v", .vnum 2)])] 20) "k").bind
        (fun e => e.data) = some (.vobj [("v", .vnum 2)])
    ∧ (witnessBranch "k").bind (fun e => e.data) = some (.vobj [("v", .vnum 1)])
    ∧ (JSValue.vobj [("v", .vnum 2)]) ≠ (JSValue.vobj [("v", .vnum 1)]) := by
  refine ⟨rfl, rfl, ?_⟩
  simp

/-- C1 as amended: the stale-write guard suppresses `data`, `dataMs` and
`goodFetchMonoMs` — applying only the `inFlight` bookkeeping — on the
direct-write path, and `saveStaleResponse = true` lets the direct write
proceed unguarded; on the merge-function path only the bookkeeping event is
guarded, while the accompanying UPDATE_DATA event still applies the updater
to `data` (with a fresh `dataMs`) even when the fetch is stale. -/
theorem stale_write_guard_amended :
    ∀ (st : QueryBranch) (k : String) (d : JSValue) (a m : Nat) (fl : List InFlightEntry)
      (now : Nat),
      (m < ((st k).bind (fun e => e.goodFetchMonoMs)).getD 0 →
        (((reduce st (.updateQueryState k
            { data := some d, dataMs := some a, goodFetchMonoMs := some m,
              inFlight := some fl } false) now) k).bind (fun e => e.data)
            = (st k).bind (fun e => e.data)
          ∧ ((reduce st (.updateQueryState k
            { data := some d, dataMs := some a, goodFetchMonoMs := some m,
              inFlight := some fl } false) now) k).bind (fun e => e.dataMs)
            = (st k).bind (fun e => e.dataMs)
          ∧ ((reduce st (.updateQueryState k
            { data := some d, dataMs := some a, goodFetchMonoMs := some m,
              inFlight := some fl } false) now) k).bind (fun e => e.goodFetchMonoMs)
            = (st k).bind (fun e => e.goodFetchMonoMs)
          ∧ ((reduce st (.updateQueryState k
            { data := some d, dataMs := some a, goodFetchMonoMs := some m,
              inFlight := some fl } false) now) k).bind (fun e => e.error)
            = (st k).bind (fun e => e.error)
          ∧ ((reduce st (.updateQueryState k
            { data := some d, dataMs := some a, goodFetchMonoMs := some m,
              inFlight := some fl } false) now) k).bind (fun e => e.inFlight)
            = some fl))
      ∧ (((reduce st (.updateQueryState k
            { data := some d, dataMs := some a, goodFetchMonoMs := some m,
              inFlight := some fl } true) now) k).bind (fun e => e.data) = some d
          ∧ ((reduce st (.updateQueryState k
            { data := some d, dataMs := some a, goodFetchMonoMs := some m,
              inFlight := some fl } true) now) k).bind (fun e => e.goodFetchMonoMs)
            = some m)
      ∧ (m < ((st k).bind (fun e => e.goodFetchMonoMs)).getD 0 →
        ∀ (u : Updater) (nd : JSValue) (now₂ : Nat),
          (((reduce st (.updateQueryState k
              { dataMs := some a, goodFetchMonoMs := some m, inFlight := some fl }
              false) now) k).bind (fun e => e.data) = (st k).bind (fun e => e.data))
          ∧ (((reduce st (.updateQueryState k
              { dataMs := some a, goodFetchMonoMs := some m, inFlight := some fl }
              false) now) k).bind (fun e => e.goodFetchMonoMs)
              = (st k).bind (fun e => e.goodFetchMonoMs))
          ∧ (∀ v,
            u (((reduce st (.updateQueryState k
                { dataMs := some a, goodFetchMonoMs := some m, inFlight := some fl }
                false) now) k).bind (fun e => e.data)) nd = .value v →
            ((reduce (reduce st (.updateQueryState k
                { dataMs := some a, goodFetchMonoMs := some m, inFlight := some fl }
                false) now) (.updateData k u nd) now₂) k).bind (fun e => e.data)
              = some (spreadCopy v)
            ∧ ((reduce (reduce st (.updateQueryState k
                { dataMs := some a, goodFetchMonoMs := some m, inFlight := some fl }
                false) now) (.updateData k u nd) now₂) k).bind (fun e => e.dataMs)
              = some now₂)) := by
  intro st k d a m fl now
  refine ⟨?_, ?_, ?_⟩
  · intro hm
    simp only [reduce, staleStrip, Bool.false_eq_true, if_false, if_pos hm]
    cases hst : st k <;> simp [setKey, spreadInto, hst]
  · simp only [reduce, staleStrip, if_true]
    cases hst : st k <;> simp [setKey, spreadInto, hst]
  · intro hm u nd now₂
    refine ⟨?_, ?_, ?_⟩
    · simp only [reduce, staleStrip, Bool.false_eq_true, if_false, if_pos hm]
      cases hst : st k <;> simp [setKey, spreadInto, hst]
    · simp only [reduce, staleStrip, Bool.false_eq_true, if_false, if_pos hm]
      cases hst : st k <;> simp [setKey, spreadInto, hst]
    · intro v h
      simp only [reduce, staleStrip, Bool.false_eq_true, if_false, if_pos hm] at h ⊢
      rw [h]
      cases hst : st k <;> simp [setKey, spreadInto, hst]

/-- Witness for C1 (amended) at the concrete branch of the counterexample. -/
theorem stale_write_guard_amended_witness :
    (((reduce witnessBranch (.updateQueryState "k"
        { data := some (.vobj [("v", .vnum 2)]), dataMs := some 20,
          goodFetchMonoMs := some 3, inFlight := some [] } false) 20) "k").bind
        (fun e => e.data) = (witnessBranch "k").bind (fun e => e.data))
    ∧ (((reduce witnessBranch (.updateQueryState "k"
        { data := some (.vobj [("v", .vnum 2)]), dataMs := some 20,
          goodFetchMonoMs := some 3, inFlight := some [] } true) 20) "k").bind
        (fun e => e.data) = some (.vobj [("v", .vnum 2)])) := by
  constructor
  · exact ((stale_write_guard_amended witnessBranch "k" (.vobj [("v", .vnum 2)]) 20 3 [] 20).1
      (by decide)).1
  · exact (stale_write_guard_amended witnessBranch "k" (.vobj [("v", .vnum 2)]) 20 3 [] 20).2.1.1

/-! ### Discard completions and in-flight lockstep (C4) -/

/-- Reading back the key just written to the registry. -/
theorem regGet_regSet_self (reg : Registry) (k : String) (v : RegEntry) :
    regGet (regSet reg k v) k = some v := by
  induction reg with
  | nil => simp [regGet, regSet]
  | cons p rest ih =>
    by_cases h : p.1 = k
    · simp [regGet, regSet, h]
    · simp only [regSet, if_neg h]
      simpa [regGet, h] using ih

/-- Counterexample to C4. A fetch for `"k"` begins on an empty registry
(reserving id `"5-0"` and dispatching the start bookkeeping event) and
completes with a nullish response. The completion dispatches no store event
at all — not the one bookkeeping event the claim requires — so the cache
entry's `inFlight` still contains `"5-0"` while the registry's in-flight set
is empty: the two are not in lockstep after this completed invocation. -/
theorem discard_lockstep_counterexample :
    (queryBegin "k" 1 5 false 2000 []).2
      = some ⟨"5-0", [⟨"5-0", 5⟩],
          .updateQueryState "k" { fetchMs := some 1, inFlight := some [⟨"5-0", 5⟩] } false⟩
    ∧ ((reduce (fun _ => none)
        (.updateQueryState "k" { fetchMs := some 1, inFlight := some [⟨"5-0", 5⟩] } false) 1)
        "k").bind (fun e => e.inFlight) = some [⟨"5-0", 5⟩]
    ∧ (queryComplete "k" "5-0" 5 9 none true false (.resolved .vnull)
        (queryBegin "k" 1 5 false 2000 []).1).events = []
    ∧ regGet (queryComplete "k" "5-0" 5 9 none true false (.resolved .vnull)
        (queryBegin "k" 1 5 false 2000 []).1).registry "k" = some ⟨5, []⟩
    ∧ ([⟨"5-0", 5⟩] : List InFlightEntry) ≠ [] := by
  refine ⟨rfl, rfl, rfl, rfl, by decide⟩

/-- C4 as amended: when a fetch completes with a discard-classified (nullish)
response the orchestrator emits no store event at all — the cache entry,
including its `inFlight` field, is left exactly as the start-of-fetch event
wrote it — and only the In-Flight Registry has the completed request id
removed, so the registry's set and the entry's `inFlight` field can disagree
after a discard completion. -/
theorem discard_completion_amended :
    ∀ (key reqId : String) (t a : Nat) (upd : Option Updater) (ce sst : Bool)
      (r : JSValue) (reg : Registry),
      isNullish r = true →
      (queryComplete key reqId t a upd ce sst (.resolved r) reg).events = []
      ∧ (∀ (st : QueryBranch) (now : Nat),
        applyEvents st (queryComplete key reqId t a upd ce sst (.resolved r) reg).events now
          = st)
      ∧ ((regGet (queryComplete key reqId t a upd ce sst (.resolved r) reg).registry key).map
          (fun e => e.inFlight))
        = some (endFetch (((regGet reg key).map (fun e => e.inFlight)).getD []) reqId) := by
  intro key reqId t a upd ce sst r reg h
  have hcl : classify r = .discard := by
    cases r <;> simp_all [isNullish, classify]
  refine ⟨?_, ?_, ?_⟩
  · simp [queryComplete, hcl]
  · intro st now
    simp [queryComplete, hcl, applyEvents]
  · simp [queryComplete, hcl, regGet_regSet_self]

/-- Witness for C4 (amended) at the counterexample's concrete completion. -/
theorem discard_completion_amended_witness :
    (queryComplete "k" "5-0" 5 9 none true false (.resolved .vnull)
        [("k", ⟨5, [⟨"5-0", 5⟩]⟩)]).events = []
    ∧ ((regGet (queryComplete "k" "5-0" 5 9 none true false (.resolved .vnull)
        [("k", ⟨5, [⟨"5-0", 5⟩]⟩)]).registry "k").map (fun e => e.inFlight))
      = some (endFetch [⟨"5-0", 5⟩] "5-0") := by
  have h := discard_completion_amended "k" "5-0" 5 9 none true false .vnull
    [("k", ⟨5, [⟨"5-0", 5⟩]⟩)] rfl
  exact ⟨h.1, h.2.2⟩

/-! ### Fetcher rejection (C5) -/

/-- Counterexample to C5's re-throw clause. A fetcher may reject with a falsy
value (here `null`); the catch block replaces it (`error = e || {}`) by an
empty object, which is what gets recorded and, with `catchError = false`,
re-thrown — not the original rejection value. -/
theorem rethrow_original_error_counterexample :
    (queryComplete "k" "5-0" 5 9 none false false (.threw .vnull)
        [("k", ⟨5, [⟨"5-0", 5⟩]⟩)]).ret = .retThrow (.vobj [])
    ∧ (JSValue.vobj []) ≠ .vnull := by
  exact ⟨rfl, by simp⟩

/-- C5 as amended: on a fetcher rejection with value `e`, `query` always
emits exactly the error store event `{error, errorMs, inFlight}` — with
error value `e || {}` — regardless of `catchError`; then it returns
`undefined` when `catchError` is true and re-throws when `catchError` is
false. The re-thrown value is the original `e` whenever `e` is truthy, and
the substituted empty object when `e` is falsy. -/
theorem fetcher_rejection_amended :
    ∀ (key reqId : String) (t a : Nat) (upd : Option Updater) (ce sst : Bool)
      (e : JSValue) (reg : Registry),
      (queryComplete key reqId t a upd ce sst (.threw e) reg).events
        = [.updateQueryState key
            { error := some (if truthy e then e else .vobj [])
              errorMs := some a
              inFlight := some (endFetch (((regGet reg key).map (fun x => x.inFlight)).getD [])
                reqId) } false]
      ∧ (ce = true → (queryComplete key reqId t a upd ce sst (.threw e) reg).ret
          = .retUndefined)
      ∧ (ce = false → (queryComplete key reqId t a upd ce sst (.threw e) reg).ret
          = .retThrow (if truthy e then e else .vobj []))
      ∧ (truthy e = true → (if truthy e then e else JSValue.vobj []) = e) := by
  intro key reqId t a upd ce sst e reg
  refine ⟨rfl, ?_, ?_, ?_⟩
  · intro h
    simp [queryComplete, h]
  · intro h
    simp [queryComplete, h]
  · intro h
    simp [h]

/-- Witness for C5 (amended): a truthy rejection value with
`catchError = false` is recorded and then re-thrown unchanged. -/
theorem fetcher_rejection_amended_witness :
    (queryComplete "k" "5-0" 5 9 none false false (.threw (.vstr "boom"))
        [("k", ⟨5, [⟨"5-0", 5⟩]⟩)]).events
      = [.updateQueryState "k"
          { error := some (.vstr "boom"), errorMs := some 9, inFlight := some [] } false]
    ∧ (queryComplete "k" "5-0" 5 9 none false false (.threw (.vstr "boom"))
        [("k", ⟨5, [⟨"5-0", 5⟩]⟩)]).ret = .retThrow (.vstr "boom") := by
  have h := fetcher_rejection_amended "k" "5-0" 5 9 none false false (.vstr "boom")
    [("k", ⟨5, [⟨"5-0", 5⟩]⟩)]
  exact ⟨h.1, h.2.2.1 rfl⟩

/-! ### Deduplication window (C2) -/

/-- A `query` call inside the dedupe window bails out before any mutation:
the registry is returned untouched and nothing else happens. -/
theorem queryBegin_dedupe_hit (key : String) (f t : Nat) (w : Int) (reg : Registry)
    (fsb : RegEntry) (hget : regGet reg key = some fsb)
    (hw : (t : Int) - (fsb.fetchMonoMs : Int) ≤ w) :
    queryBegin key f t true w reg = (reg, none) := by
  simp [queryBegin, hget, hw]

/-- A `query` call that proceeds reserves its slot: the registry afterwards
holds this call's start ordinal and extended in-flight array at the key. -/
theorem queryBegin_proceed_registry (key : String) (f t : Nat) (d : Bool) (w : Int)
    (reg : Registry) (b : BeginOk) (h : (queryBegin key f t d w reg).2 = some b) :
    (queryBegin key f t d w reg).1 = regSet reg key ⟨t, b.inFlightBefore⟩ := by
  rcases hget : regGet reg key with _ | fsb
  · simp only [queryBegin, hget, Option.map_none', Option.getD_none, List.length_nil,
      Nat.zero_add, Bool.false_eq_true, if_false] at h ⊢
    rcases hgen : genIdLoop t [] 0 1 with _ | id <;> simp only [hgen] at h ⊢
    · simp at h
    · simp only [Option.some.injEq] at h
      subst h
      rfl
  · simp only [queryBegin, hget, Option.map_some', Option.getD_some] at h ⊢
    cases hd : (d && decide ((t : Int) - (fsb.fetchMonoMs : Int) ≤ w)) <;>
      simp only [hd, Bool.false_eq_true, if_false, if_true] at h ⊢
    · rcases hgen : genIdLoop t fsb.inFlight 0 (fsb.inFlight.length + 1) with _ | id <;>
        simp only [hgen] at h ⊢
      · simp at h
      · simp only [Option.some.injEq] at h
        subst h
        rfl
    · simp at h

/-- C2: if a `query` call for a key proceeds at monotonic ordinal `t₀`, then a
second call with `dedupe = true` starting at `t₁` with `t₁ - t₀ ≤ w` inside
the window performs no registry mutation, generates no id, dispatches no
store event and does not invoke the fetcher — `queryBegin` hands back the
registry untouched and `none`, upon which `query` returns `undefined`
immediately. The pair thus produces exactly one fetcher invocation: the
first call's. -/
theorem dedupe_window_second_call_noop :
    ∀ (reg : Registry) (key : String) (f₀ t₀ f₁ t₁ : Nat) (d₀ : Bool) (w : Int),
      (queryBegin key f₀ t₀ d₀ w reg).2.isSome = true →
      (t₁ : Int) - (t₀ : Int) ≤ w →
      queryBegin key f₁ t₁ true w (queryBegin key f₀ t₀ d₀ w reg).1
        = ((queryBegin key f₀ t₀ d₀ w reg).1, none) := by
  intro reg key f₀ t₀ f₁ t₁ d₀ w h1 h2
  obtain ⟨b, hb⟩ := Option.isSome_iff_exists.mp h1
  have hreg := queryBegin_proceed_registry key f₀ t₀ d₀ w reg b hb
  rw [hreg]
  exact queryBegin_dedupe_hit key f₁ t₁ w _ ⟨t₀, b.inFlightBefore⟩
    (regGet_regSet_self reg key ⟨t₀, b.inFlightBefore⟩) h2

/-- Witness for C2: two calls 50 ms apart inside a 2000 ms window; the first
proceeds on an empty registry, the second is a complete no-op. -/
theorem dedupe_window_second_call_noop_witness :
    queryBegin "k" 101 105 true 2000 (queryBegin "k" 1 55 false 2000 []).1
      = ((queryBegin "k" 1 55 false 2000 []).1, none) :=
  dedupe_window_second_call_noop [] "k" 1 55 101 105 false 2000 (by decide) (by decide)

/-! ### Polling cancellation (C7) -/

/-- C7 fails on the code: a zombie loop survives a key change. React runs the
effect's cleanup (`pollId.current = 0`) before every dependency-change
re-run, so the body's `pollId.current = pollId.current + 1` always yields
generation 1 — generations are not monotone. The trace below models: mount
`usePoll` with key `"a"` (the loop captures `pid = 1`); its first cycle
fetches, completes and schedules its `setTimeout` callback; the key changes
to `"b"` (cleanup resets the counter to 0, the re-run sets it back to 1 and
starts a new loop, also with `pid = 1`); then the old loop's scheduled
callback fires. Its guard `pollId.current === 0 || pollId.current !== pid`
compares `1` with `1` and does not exit, so the cancelled loop invokes the
fetcher with the stale key `"a"` again (second `⟨1, "a"⟩` entry in
`fetchLog`, after the restart) and keeps itself scheduled — contradicting
the claim (and the hook's own documentation, `Poll is cleared and reset if
key or intervalMs changes`). -/
theorem poll_restart_zombie_fetch :
    (pollRun ⟨0, [], [], [], []⟩
        [.effectBody "a", .fire ⟨1, "a"⟩, .complete ⟨1, "a"⟩, .cleanup, .effectBody "b",
          .fire ⟨1, "a"⟩]).fetchLog = [⟨1, "a"⟩, ⟨1, "a"⟩]
    ∧ (pollRun ⟨0, [], [], [], []⟩
        [.effectBody "a", .fire ⟨1, "a"⟩, .complete ⟨1, "a"⟩, .cleanup, .effectBody "b"])
      = ⟨1, [⟨1, "a"⟩, ⟨1, "b"⟩], [], [⟨1, "a"⟩], [⟨1, "a"⟩]⟩
    ∧ pollGuardExits 1 1 = false
    ∧ (pollRun ⟨0, [], [], [], []⟩
        [.effectBody "a", .fire ⟨1, "a"⟩, .complete ⟨1, "a"⟩, .cleanup, .effectBody "b",
          .fire ⟨1, "a"⟩]).running = [⟨1, "a"⟩] := by
  refine ⟨by decide, by decide, by decide, by decide⟩

/-! ### Request-id generation (C9) -/

/-- `Nat.digitChar` is injective on decimal digits. -/
theorem digitChar_inj_lt10 :
    ∀ a, a < 10 → ∀ b, b < 10 → Nat.digitChar a = Nat.digitChar b → a = b := by
  decide

/-- With enough fuel, the digit list of a nonzero number is nonempty. -/
theorem decDigits_ne_nil (fuel n : Nat) (h0 : n ≠ 0) (hf : n ≤ fuel) :
    decDigits fuel n ≠ [] := by
  match fuel, n with
  | _, 0 => exact absurd rfl h0
  | 0, n + 1 => omega
  | fuel + 1, n + 1 => simp [decDigits]

/-- With enough fuel, only zero has an empty digit list. -/
theorem decDigits_eq_nil (fuel n : Nat) (hf : n ≤ fuel) (h : decDigits fuel n = []) :
    n = 0 := by
  by_contra h0
  exact decDigits_ne_nil fuel n h0 hf h

/-- Decimal digit lists are canonical: equal lists (under sufficient fuel)
come from equal numbers. -/
theorem decDigits_inj :
    ∀ n₁ n₂ fuel₁ fuel₂, n₁ ≤ fuel₁ → n₂ ≤ fuel₂ →
      decDigits fuel₁ n₁ = decDigits fuel₂ n₂ → n₁ = n₂ := by
  intro n₁
  induction n₁ using Nat.strong_induction_on with
  | _ n₁ ih =>
    intro n₂ fuel₁ fuel₂ h₁ h₂ h
    match n₁, fuel₁ with
    | 0, fuel₁ =>
      have : decDigits fuel₂ n₂ = [] := by
        rw [← h]
        cases fuel₁ <;> rfl
      exact (decDigits_eq_nil fuel₂ n₂ h₂ this).symm
    | m + 1, 0 => omega
    | m + 1, f₁ + 1 =>
      match n₂, fuel₂ with
      | 0, fuel₂ =>
        have hne := decDigits_ne_nil (f₁ + 1) (m + 1) (Nat.succ_ne_zero m) h₁
        rw [h] at hne
        cases fuel₂ <;> exact absurd rfl hne
      | k + 1, 0 => omega
      | k + 1, f₂ + 1 =>
        rw [decDigits, decDigits] at h
        have hparts := List.append_inj' h rfl
        have hchar : Nat.digitChar ((m + 1) % 10) = Nat.digitChar ((k + 1) % 10) := by
          simpa using hparts.2
        have hmod : (m + 1) % 10 = (k + 1) % 10 :=
          digitChar_inj_lt10 _ (Nat.mod_lt _ (by norm_num)) _
            (Nat.mod_lt _ (by norm_num)) hchar
        have hdivlt : (m + 1) / 10 < m + 1 := Nat.div_lt_self (Nat.succ_pos m) (by norm_num)
        have hdiv : (m + 1) / 10 = (k + 1) / 10 :=
          ih ((m + 1) / 10) hdivlt ((k + 1) / 10) f₁ f₂ (by omega)
            (by
              have : (k + 1) / 10 < k + 1 := Nat.div_lt_self (Nat.succ_pos k) (by norm_num)
              omega)
            hparts.1
        have e₁ := Nat.div_add_mod (m + 1) 10
        have e₂ := Nat.div_add_mod (k + 1) 10
        omega

/-- Decimal rendering is injective. -/
theorem decRepr_inj : ∀ a b, decRepr a = decRepr b → a = b := by
  have hzero : ∀ n fuel, n ≤ fuel → decDigits fuel n ≠ ['0'] := by
    intro n fuel hf h
    match fuel, n with
    | _, 0 => cases fuel <;> simp [decDigits] at h
    | 0, n + 1 => omega
    | fuel + 1, n + 1 =>
      rw [decDigits] at h
      have h' : decDigits fuel ((n + 1) / 10) ++ [Nat.digitChar ((n + 1) % 10)]
          = [] ++ ['0'] := by simpa using h
      have hparts := List.append_inj' h' rfl
      have hdigit : (n + 1) % 10 = 0 :=
        digitChar_inj_lt10 _ (Nat.mod_lt _ (by norm_num)) 0 (by norm_num)
          (by simpa using hparts.2)
      have hdiv : (n + 1) / 10 = 0 := by
        refine decDigits_eq_nil fuel ((n + 1) / 10) ?_ hparts.1
        have : (n + 1) / 10 < n + 1 := Nat.div_lt_self (Nat.succ_pos n) (by norm_num)
        omega
      have := Nat.div_add_mod (n + 1) 10
      omega
  intro a b h
  rw [decRepr, decRepr] at h
  by_cases ha : a = 0 <;> by_cases hb : b = 0
  · omega
  · rw [if_pos ha, if_neg hb] at h
    have : (⟨decDigits b b⟩ : String).data = "0".data := by rw [← h]
    exact absurd this (hzero b b le_rfl)
  · rw [if_neg ha, if_pos hb] at h
    have : (⟨decDigits a a⟩ : String).data = "0".data := by rw [h]
    exact absurd this (hzero a a le_rfl)
  · rw [if_neg ha, if_neg hb] at h
    exact decDigits_inj a b a b le_rfl le_rfl (congrArg String.data h)

/-- For a fixed start ordinal, distinct counters give distinct candidate
ids. -/
theorem mkId_inj_counter (t : Nat) : ∀ a b, mkId t a = mkId t b → a = b := by
  intro a b h
  have hd := congrArg String.data h
  simp only [mkId, String.data_append] at hd
  have hda := List.append_cancel_left hd
  exact decRepr_inj a b (String.ext hda)

/-- If the id loop fails with a given fuel, every one of its `fuel`
candidates was already an in-flight id. -/
theorem genIdLoop_none_mem :
    ∀ (fuel c t : Nat) (l : List InFlightEntry),
      genIdLoop t l c fuel = none →
      ∀ j < fuel, mkId t (c + j) ∈ l.map (fun d => d.id) := by
  intro fuel
  induction fuel with
  | zero => intro c t l _ j hj; omega
  | succ f ih =>
    intro c t l h j hj
    rw [genIdLoop] at h
    by_cases hc : l.any (fun d => d.id == mkId t c) = true
    · rw [if_pos hc] at h
      match j with
      | 0 =>
        obtain ⟨d, hd, hid⟩ := List.any_eq_true.mp hc
        simp only [beq_iff_eq] at hid
        rw [Nat.add_zero, ← hid]
        exact List.mem_map_of_mem (fun d => d.id) hd
      | j + 1 =>
        have := ih (c + 1) t l h j (by omega)
        rwa [show c + 1 + j = c + (j + 1) by omega] at this
    · rw [if_neg hc] at h
      exact absurd h (by simp)

/-- When the id loop succeeds, the produced id has the candidate shape and
collides with no in-flight id. -/
theorem genIdLoop_some_spec :
    ∀ (fuel c t : Nat) (l : List InFlightEntry) (id : String),
      genIdLoop t l c fuel = some id →
      ∃ c', id = mkId t c' ∧ id ∉ l.map (fun d => d.id) := by
  intro fuel
  induction fuel with
  | zero => intro c t l id h; exact absurd h (by simp [genIdLoop])
  | succ f ih =>
    intro c t l id h
    rw [genIdLoop] at h
    by_cases hc : l.any (fun d => d.id == mkId t c) = true
    · rw [if_pos hc] at h
      exact ih (c + 1) t l id h
    · rw [if_neg hc] at h
      refine ⟨c, (Option.some.injEq _ _ ▸ h).symm, ?_⟩
      obtain rfl : id = mkId t c := by simpa using h.symm
      intro hmem
      obtain ⟨d, hd, hid⟩ := List.mem_map.mp hmem
      exact hc (List.any_eq_true.mpr ⟨d, hd, by simp [hid]⟩)

/-- Fuel `length + 1` always suffices for the id loop: among `length + 1`
distinct candidates at most `length` can collide with existing ids. -/
theorem genIdLoop_isSome (t : Nat) (l : List InFlightEntry) :
    (genIdLoop t l 0 (l.length + 1)).isSome = true := by
  rw [Option.isSome_iff_exists]
  by_contra hnone
  push_neg at hnone
  have h : genIdLoop t l 0 (l.length + 1) = none := by
    cases hg : genIdLoop t l 0 (l.length + 1) with
    | none => rfl
    | some id => exact absurd hg (hnone id)
  have hmem := genIdLoop_none_mem (l.length + 1) 0 t l h
  have hsub : ∀ j ∈ Finset.range (l.length + 1),
      mkId t j ∈ (l.map (fun d => d.id)).toFinset := by
    intro j hj
    rw [List.mem_toFinset]
    simpa using hmem j (Finset.mem_range.mp hj)
  have hinj : Set.InjOn (fun j => mkId t j) (Finset.range (l.length + 1)) :=
    fun a _ b _ hab => mkId_inj_counter t a b hab
  have hcard := Finset.card_le_card_of_injOn (fun j => mkId t j) hsub hinj
  have hlen := List.toFinset_card_le (l.map (fun d => d.id))
  rw [Finset.card_range] at hcard
  rw [List.length_map] at hlen
  omega

/-- C9: for every finite in-flight set and start ordinal, the request-id
generation loop terminates within `length + 1` candidate attempts, and the id
it produces has the form `"{startOrdinal}-{counter}"` and is not the id of
any element already in the in-flight set. -/
theorem request_id_generation_terminates_fresh :
    ∀ (t : Nat) (l : List InFlightEntry),
      ∃ id c, genIdLoop t l 0 (l.length + 1) = some id
        ∧ id = mkId t c
        ∧ id ∉ l.map (fun d => d.id) := by
  intro t l
  obtain ⟨id, hid⟩ := Option.isSome_iff_exists.mp (genIdLoop_isSome t l)
  obtain ⟨c, hc, hmem⟩ := genIdLoop_some_spec (l.length + 1) 0 t l id hid
  exact ⟨id, c, hid, hc, hmem⟩

end RRQ
